import Mathlib

/-!
# Verification of the fintrack portfolio services

Shallow embedding of `src/python-starter-code.py`. Python floats are
modelled by `ℚ` (exact arithmetic); the one transcendental computation
(`_estimate_xirr`, which raises a real number to the fractional power
`12 / months`) is modelled over `ℝ` with `Real.rpow`.

Python dicts (insertion ordered, string keys) are modelled by association
lists `List (String × α)` together with `dictGet` (= `d.get(k)`) and
`dictInsert` (= `d[k] = v`: replace in place when the key exists, append
otherwise). Network-fetched data (the price map built by
`fetch_current_prices`, the NAV history returned by
`get_scheme_nav_history`) is passed in as an explicit parameter.
-/

/-- Python `d.get(k)`: first entry of the association list with key `k`. -/
def dictGet {α : Type} : List (String × α) → String → Option α
  | [], _ => none
  | (k', v) :: rest, k => if k' = k then some v else dictGet rest k

/-- Python `d[k] = v` on an insertion-ordered dict: overwrite the entry in
place when the key is present, append a new entry otherwise. -/
def dictInsert {α : Type} (k : String) (v : α) : List (String × α) → List (String × α)
  | [] => [(k, v)]
  | (k', v') :: rest => if k' = k then (k, v) :: rest else (k', v') :: dictInsert k v rest

/-- Entry of `StockPortfolioService.holdings`, as stored by `add_stock`
(lines 149-154): the `current_price` slot is initialised to `None`. -/
structure StockHolding where
  quantity : ℚ
  purchase_price : ℚ
  purchase_date : String
  current_price : Option ℚ
deriving DecidableEq

/-- Entry of the price map built by `fetch_current_prices` (lines 172-179).
Only the `price` field is ever read by `calculate_portfolio_metrics`; it is
`stock.info.get('currentPrice')`, which can be `None`. The key is always
present in a stored quote dict. -/
structure Quote where
  price : Option ℚ
deriving DecidableEq

namespace StockPortfolioService

/-- `add_stock` (lines 146-154). -/
def add_stock (holdings : List (String × StockHolding)) (ticker : String)
    (quantity purchase_price : ℚ) (purchase_date : String) :
    List (String × StockHolding) :=
  dictInsert ticker ⟨quantity, purchase_price, purchase_date, none⟩ holdings

/-- Per-ticker entry of `holdings_detail` (lines 211-220). -/
structure StockDetail where
  quantity : ℚ
  purchase_price : ℚ
  current_price : ℚ
  invested_value : ℚ
  current_value : ℚ
  gain_loss : ℚ
  gain_loss_percent : ℚ
  allocation_percent : ℚ
deriving DecidableEq

/-- The summary dict returned at lines 222-228. -/
structure StockSummary where
  total_invested : ℚ
  total_current : ℚ
  total_gain_loss : ℚ
  total_gain_loss_percent : ℚ
  holdings : List (String × StockDetail)
deriving DecidableEq

/-- Possible outcomes of `StockPortfolioService.calculate_portfolio_metrics`:
the bare `{}` returned for an empty ledger (line 192), a `TypeError` raised
when a stored quote carries `price: None` (so `None * quantity` at line 203),
or the full summary. -/
inductive StockResult where
  | empty
  | typeError
  | ok (s : StockSummary)
deriving DecidableEq

/-- Line 202: `prices.get(ticker, {}).get('price', holding['purchase_price'])`.
When the ticker is absent the inner `get` runs on `{}` and yields the
fallback `purchase_price`; when a quote is present its `'price'` key exists
(see `fetch_current_prices`) and its stored value — possibly `None` — is
returned, the fallback notwithstanding. -/
def resolve_current_price (prices : List (String × Quote)) (ticker : String)
    (purchase_price : ℚ) : Option ℚ :=
  match dictGet prices ticker with
  | none => some purchase_price
  | some q => q.price

/-- The loop of lines 200-220, threading the running `total_invested`,
`total_current` and `holdings_detail` accumulators. A `None` resolved price
aborts the whole computation (`None * quantity` raises). -/
def metricsLoop (prices : List (String × Quote)) :
    List (String × StockHolding) → ℚ → ℚ → List (String × StockDetail) →
    Option (ℚ × ℚ × List (String × StockDetail))
  | [], ti, tc, det => some (ti, tc, det)
  | (ticker, h) :: rest, ti, tc, det =>
    let invested_value := h.purchase_price * h.quantity
    match resolve_current_price prices ticker h.purchase_price with
    | none => none
    | some current_price =>
      let current_value := current_price * h.quantity
      let gain_loss := current_value - invested_value
      let gain_loss_percent := if invested_value > 0 then gain_loss / invested_value * 100 else 0
      let ti' := ti + invested_value
      let tc' := tc + current_value
      let allocation_percent := if tc' > 0 then current_value / tc' * 100 else 0
      metricsLoop prices rest ti' tc'
        (dictInsert ticker
          ⟨h.quantity, h.purchase_price, current_price, invested_value, current_value,
            gain_loss, gain_loss_percent, allocation_percent⟩ det)

/-- `calculate_portfolio_metrics` (lines 188-228), parameterised by the price
map that `fetch_current_prices` would have returned. Note line 219 computes
`allocation_percent` from the *running* `total_current` (updated at line 209
for the positions seen so far), not from the grand total. -/
def calculate_portfolio_metrics (prices : List (String × Quote))
    (holdings : List (String × StockHolding)) : StockResult :=
  match holdings with
  | [] => .empty
  | _ =>
    match metricsLoop prices holdings 0 0 [] with
    | none => .typeError
    | some (ti, tc, det) =>
      .ok ⟨ti, tc, tc - ti, if ti > 0 then (tc - ti) / ti * 100 else 0, det⟩

end StockPortfolioService

/-- Entry of `MutualFundService.holdings`, as stored by `add_holding`
(lines 315-320). -/
structure MFHolding where
  units : ℚ
  amount_invested : ℚ
  current_nav : ℚ
  purchase_date : String
deriving DecidableEq

namespace MutualFundService

/-- `add_holding` (lines 310-320), parameterised by the NAV history (each
entry's parsed `float(e['nav'])`, newest first) that `get_scheme_nav_history`
would have returned, and by the timestamp `datetime.now().isoformat()`.
Line 313: `latest_nav = float(nav_history[0]['nav']) if nav_history else 0`. -/
def add_holding (nav_history : List ℚ) (scheme_code : String)
    (units amount_invested : ℚ) (now : String)
    (holdings : List (String × MFHolding)) : List (String × MFHolding) :=
  let latest_nav := match nav_history with | [] => 0 | n :: _ => n
  dictInsert scheme_code ⟨units, amount_invested, latest_nav, now⟩ holdings

/-- Per-scheme entry of `holdings_detail` (lines 336-343). -/
structure MFDetail where
  units : ℚ
  nav : ℚ
  amount_invested : ℚ
  current_value : ℚ
  gain_loss : ℚ
  gain_loss_percent : ℚ
deriving DecidableEq

/-- The summary dict returned at lines 345-351. -/
structure MFSummary where
  total_invested : ℚ
  total_current : ℚ
  total_gain_loss : ℚ
  total_gain_loss_percent : ℚ
  holdings : List (String × MFDetail)
deriving DecidableEq

/-- The loop of lines 328-343. -/
def mfMetricsLoop :
    List (String × MFHolding) → ℚ → ℚ → List (String × MFDetail) →
    ℚ × ℚ × List (String × MFDetail)
  | [], ti, tc, det => (ti, tc, det)
  | (scheme_code, h) :: rest, ti, tc, det =>
    let current_value := h.units * h.current_nav
    let gain_loss := current_value - h.amount_invested
    let gain_loss_percent :=
      if h.amount_invested > 0 then gain_loss / h.amount_invested * 100 else 0
    mfMetricsLoop rest (ti + h.amount_invested) (tc + current_value)
      (dictInsert scheme_code
        ⟨h.units, h.current_nav, h.amount_invested, current_value, gain_loss,
          gain_loss_percent⟩ det)

/-- `MutualFundService.calculate_portfolio_metrics` (lines 322-351): unlike
its stock counterpart it returns the full summary even for an empty ledger. -/
def calculate_portfolio_metrics (holdings : List (String × MFHolding)) : MFSummary :=
  match mfMetricsLoop holdings 0 0 [] with
  | (ti, tc, det) =>
    ⟨ti, tc, tc - ti, if ti > 0 then (tc - ti) / ti * 100 else 0, det⟩

/-- `_estimate_xirr` (lines 384-392). Python's `**` on floats is modelled by
`Real.rpow` (the exponent `12 / months` is fractional in general). -/
noncomputable def estimate_xirr (current_value total_invested : ℝ) (months : ℕ) : ℝ :=
  if total_invested = 0 ∨ months = 0 then 0
  else ((1 + (current_value - total_invested) / total_invested) ^ ((12 : ℝ) / (months : ℝ)) - 1) * 100

/-- The accumulation loop of lines 361-366:
`for i in range(min(months, len(nav_history))): units += monthly_amount / nav[i]`. -/
def sipUnits (nav_history : List ℚ) (monthly_amount : ℚ) (months : ℕ) : ℚ :=
  (nav_history.take (min months nav_history.length)).foldl
    (fun acc nav => acc + monthly_amount / nav) 0

/-- The result dict of lines 373-382. -/
structure SipRecord where
  monthly_investment : ℚ
  total_invested : ℚ
  units_purchased : ℚ
  current_nav : ℚ
  current_value : ℚ
  gain : ℚ
  gain_percent : ℚ
  xirr_estimate : ℝ

/-- Possible outcomes of `calculate_sip_returns`: the `{"error": "Insufficient
data. Only N months available"}` dict of line 358 (carrying
`len(nav_history)`), the `IndexError` of line 368 when `months = 0` and the
history is empty (the guard passes but `nav_history[0]` does not exist), or
the full result dict. -/
inductive SipResult where
  | insufficient (available : ℕ)
  | indexError
  | ok (r : SipRecord)

/-- `calculate_sip_returns` (lines 353-382), parameterised by the parsed NAV
history (newest first). -/
noncomputable def calculate_sip_returns (nav_history : List ℚ)
    (monthly_amount : ℚ) (months : ℕ) : SipResult :=
  if nav_history.length < months then .insufficient nav_history.length
  else
    match nav_history with
    | [] => .indexError
    | latest_nav :: _ =>
      let total_invested := monthly_amount * months
      let units_purchased := sipUnits nav_history monthly_amount months
      let current_value := units_purchased * latest_nav
      let gain := current_value - total_invested
      let gain_percent := if total_invested > 0 then gain / total_invested * 100 else 0
      .ok ⟨monthly_amount, total_invested, units_purchased, latest_nav, current_value,
        gain, gain_percent,
        estimate_xirr (current_value : ℝ) (total_invested : ℝ) months⟩

end MutualFundService

/-- The dict returned by `get_net_worth` (lines 425-435), with the
`asset_allocation` sub-dict flattened into the three percent fields. -/
structure NetWorth where
  bank_balance : ℚ
  stock_portfolio_value : ℚ
  mf_portfolio_value : ℚ
  total_net_worth : ℚ
  bank_percent : ℚ
  stocks_percent : ℚ
  mf_percent : ℚ
deriving DecidableEq

namespace FinanceTrackerDashboard

/-- The computation of lines 423-435 as a function of the bank balance and
the two portfolio current values. (Line 413 currently stubs the bank balance
to `0` — "Would fetch from bank_service in real implementation"; the stub is
applied in `dashboard_get_net_worth` below.) -/
def get_net_worth (bank_balance stock_value mf_value : ℚ) : NetWorth :=
  let total_net_worth := bank_balance + stock_value + mf_value
  ⟨bank_balance, stock_value, mf_value, total_net_worth,
    if total_net_worth > 0 then bank_balance / total_net_worth * 100 else 0,
    if total_net_worth > 0 then stock_value / total_net_worth * 100 else 0,
    if total_net_worth > 0 then mf_value / total_net_worth * 100 else 0⟩

/-- `get_net_worth` (lines 409-435) end to end: the stub bank balance of
line 413, `stock_metrics.get('total_current', 0)` (which reads `0` off the
bare `{}` of an empty stock ledger), likewise for funds, then the formulas of
lines 423-435. A `TypeError` escaping the stock valuation propagates. -/
def dashboard_get_net_worth (prices : List (String × Quote))
    (stock_holdings : List (String × StockHolding))
    (mf_holdings : List (String × MFHolding)) : Option NetWorth :=
  let mf := MutualFundService.calculate_portfolio_metrics mf_holdings
  match StockPortfolioService.calculate_portfolio_metrics prices stock_holdings with
  | .typeError => none
  | .empty => some (get_net_worth 0 0 mf.total_current)
  | .ok s => some (get_net_worth 0 s.total_current mf.total_current)

end FinanceTrackerDashboard

/-! ## Association-list lemmas -/

theorem dictGet_dictInsert_self {α : Type} (l : List (String × α)) (k : String) (v : α) :
    dictGet (dictInsert k v l) k = some v := by
  induction l with
  | nil => simp [dictGet, dictInsert]
  | cons hd tl ih =>
    obtain ⟨k', v'⟩ := hd
    by_cases h : k' = k
    · simp [dictGet, dictInsert, h]
    · simp [dictGet, dictInsert, h, ih]

theorem dictGet_dictInsert_ne {α : Type} (l : List (String × α)) {k k' : String} (v : α)
    (h : k' ≠ k) : dictGet (dictInsert k v l) k' = dictGet l k' := by
  have h' : ¬ (k = k') := fun hh => h hh.symm
  induction l with
  | nil => simp [dictGet, dictInsert, h']
  | cons hd tl ih =>
    obtain ⟨k₀, v₀⟩ := hd
    by_cases hk : k₀ = k
    · subst hk
      simp [dictGet, dictInsert, h']
    · by_cases hq : k₀ = k'
      · subst hq
        simp [dictGet, dictInsert, hk]
      · simp [dictGet, dictInsert, hk, hq, ih]

theorem mem_dictInsert {α : Type} (k : String) (v : α) (x : String × α) :
    ∀ l : List (String × α), x ∈ dictInsert k v l → x = (k, v) ∨ x ∈ l := by
  intro l
  induction l with
  | nil =>
    intro hx
    simpa [dictInsert] using hx
  | cons hd tl ih =>
    obtain ⟨k', v'⟩ := hd
    intro hx
    by_cases h : k' = k
    · simp only [dictInsert, if_pos h, List.mem_cons] at hx
      rcases hx with hx | hx
      · exact Or.inl hx
      · exact Or.inr (List.mem_cons_of_mem _ hx)
    · simp only [dictInsert, if_neg h, List.mem_cons] at hx
      rcases hx with hx | hx
      · exact Or.inr (hx ▸ List.mem_cons_self _ _)
      · rcases ih hx with hx' | hx'
        · exact Or.inl hx'
        · exact Or.inr (List.mem_cons_of_mem _ hx')

theorem dictInsert_of_not_mem_keys {α : Type} (l : List (String × α)) (k : String) (v : α)
    (h : k ∉ l.map Prod.fst) : dictInsert k v l = l ++ [(k, v)] := by
  induction l with
  | nil => rfl
  | cons hd tl ih =>
    obtain ⟨k', v'⟩ := hd
    simp only [List.map_cons, List.mem_cons] at h
    push_neg at h
    have h1 : ¬ (k' = k) := fun hh => h.1 hh.symm
    simp [dictInsert, h1, ih h.2]

/-! ## Claims -/

/-- C1: the claim says each position's `allocation_percent` is its
`current_value` over the *final* `total_current` times 100, summing to 100.
The code (line 219) instead divides by the *running* `total_current`:
with two holdings of equal value and no quotes available, the first is
reported at 100% and the second at 50% (sum 150), where the claim demands
50% and 50%. This theorem evaluates the code at that failing input. -/
theorem allocation_percent_uses_running_total :
    StockPortfolioService.calculate_portfolio_metrics []
        (StockPortfolioService.add_stock
          (StockPortfolioService.add_stock [] "A" 1 100 "2023-01-15") "B" 1 100 "2023-03-20")
      = .ok ⟨200, 200, 0, 0,
          [("A", ⟨1, 100, 100, 100, 100, 0, 0, 100⟩),
           ("B", ⟨1, 100, 100, 100, 100, 0, 0, 50⟩)]⟩ := by
  simp [StockPortfolioService.calculate_portfolio_metrics, StockPortfolioService.metricsLoop,
    StockPortfolioService.add_stock, dictInsert, dictGet,
    StockPortfolioService.resolve_current_price]
  norm_num

/-- C6: re-adding the same ticker silently and completely replaces the prior
position — after `add_stock X q1 p1` then `add_stock X q2 p2` the ledger
holds exactly `(q2, p2)` for `X`, and every other ticker's entry is
unchanged. -/
theorem add_stock_last_write_wins (hs : List (String × StockHolding)) (X : String)
    (q1 p1 : ℚ) (d1 : String) (q2 p2 : ℚ) (d2 : String) :
    dictGet (StockPortfolioService.add_stock
        (StockPortfolioService.add_stock hs X q1 p1 d1) X q2 p2 d2) X
      = some ⟨q2, p2, d2, none⟩ ∧
    ∀ Y, Y ≠ X →
      dictGet (StockPortfolioService.add_stock
          (StockPortfolioService.add_stock hs X q1 p1 d1) X q2 p2 d2) Y
        = dictGet hs Y := by
  constructor
  · exact dictGet_dictInsert_self _ _ _
  · intro Y hY
    show dictGet (dictInsert X _ (dictInsert X _ hs)) Y = dictGet hs Y
    rw [dictGet_dictInsert_ne _ _ hY, dictGet_dictInsert_ne _ _ hY]

/-- Witness for C6 at the spec's concrete input `add_position("X",10,100);
add_position("X",5,200)` with an unrelated ticker `"Y"` in the ledger. -/
theorem add_stock_last_write_wins_witness :
    ("Y" : String) ≠ "X" ∧
    dictGet (StockPortfolioService.add_stock
        (StockPortfolioService.add_stock [("Y", ⟨1, 1, "d0", none⟩)] "X" 10 100 "d1")
        "X" 5 200 "d2") "Y"
      = dictGet [("Y", ⟨1, 1, "d0", none⟩)] "Y" :=
  ⟨by decide,
    (add_stock_last_write_wins [("Y", ⟨1, 1, "d0", none⟩)] "X" 10 100 "d1" 5 200 "d2").2
      "Y" (by decide)⟩

/-- C10: on an empty ledger the stock engine returns the bare `{}` (no total
fields), while the fund engine returns a full summary with all four totals 0
and an empty holdings dict. -/
theorem empty_ledger_metrics_shapes :
    (∀ prices, StockPortfolioService.calculate_portfolio_metrics prices [] =
      StockPortfolioService.StockResult.empty) ∧
    MutualFundService.calculate_portfolio_metrics [] =
      { total_invested := 0, total_current := 0, total_gain_loss := 0,
        total_gain_loss_percent := 0, holdings := [] } :=
  ⟨fun _ => rfl, by
    simp [MutualFundService.calculate_portfolio_metrics, MutualFundService.mfMetricsLoop]⟩

/-! ## SIP simulation lemmas -/

theorem foldl_add_div (c : ℚ) :
    ∀ (l : List ℚ) (a : ℚ),
      l.foldl (fun acc nav => acc + c / nav) a = a + (l.map (fun nav => c / nav)).sum := by
  intro l
  induction l with
  | nil => intro a; simp
  | cons x xs ih =>
    intro a
    simp [List.foldl_cons, ih (a + c / x), add_assoc]

theorem sipUnits_eq_sum (nav : List ℚ) (c : ℚ) (N : ℕ) (h : N ≤ nav.length) :
    MutualFundService.sipUnits nav c N = ((nav.take N).map (fun x => c / x)).sum := by
  unfold MutualFundService.sipUnits
  rw [min_eq_left h, foldl_add_div, zero_add]

/-- C3: with enough NAV history (length ≥ N, newest first, nonempty) and a
nonnegative contribution `c`, the SIP simulation buys `∑ i < N, c / nav[i]`
units, values them at the newest NAV `nav[0]`, invests `c × N` in total, and
reports `gain = current_value − total_invested` and
`gain_percent = gain / total_invested × 100` (0 when `total_invested = 0`). -/
theorem calculate_sip_returns_spec (n0 : ℚ) (rest : List ℚ) (c : ℚ) (N : ℕ)
    (hlen : N ≤ (n0 :: rest).length) (hc : 0 ≤ c) :
    ∃ r, MutualFundService.calculate_sip_returns (n0 :: rest) c N =
        MutualFundService.SipResult.ok r ∧
      r.units_purchased = (((n0 :: rest).take N).map (fun x => c / x)).sum ∧
      r.current_nav = n0 ∧
      r.current_value = r.units_purchased * n0 ∧
      r.total_invested = c * N ∧
      r.gain = r.current_value - r.total_invested ∧
      r.gain_percent =
        (if r.total_invested = 0 then 0 else r.gain / r.total_invested * 100) := by
  have hnot : ¬ ((n0 :: rest).length < N) := not_lt.mpr hlen
  refine ⟨_, by rw [MutualFundService.calculate_sip_returns.eq_def, if_neg hnot], ?_, rfl, rfl, rfl, rfl, ?_⟩
  · exact sipUnits_eq_sum _ _ _ hlen
  · show (if c * (N : ℚ) > 0 then _ else 0) = if c * (N : ℚ) = 0 then 0 else _
    have hN : (0 : ℚ) ≤ (N : ℚ) := Nat.cast_nonneg N
    by_cases h0 : c * (N : ℚ) = 0
    · rw [if_pos h0, if_neg (by rw [h0]; exact lt_irrefl 0)]
    · have hpos : 0 < c * (N : ℚ) :=
        lt_of_le_of_ne (mul_nonneg hc hN) (Ne.symm h0)
      rw [if_pos hpos, if_neg h0]

/-- Witness for C3 at the spec's example: contribution 1000, N = 3,
NAV history `[110, 105, 100]` (newest first). -/
theorem calculate_sip_returns_spec_witness :
    3 ≤ ((110 : ℚ) :: [105, 100]).length ∧ (0 : ℚ) ≤ 1000 ∧
    ∃ r, MutualFundService.calculate_sip_returns ((110 : ℚ) :: [105, 100]) 1000 3 =
        MutualFundService.SipResult.ok r ∧
      r.units_purchased = ((((110 : ℚ) :: [105, 100]).take 3).map (fun x => 1000 / x)).sum ∧
      r.current_nav = 110 ∧
      r.current_value = r.units_purchased * 110 ∧
      r.total_invested = 1000 * (3 : ℕ) ∧
      r.gain = r.current_value - r.total_invested ∧
      r.gain_percent =
        (if r.total_invested = 0 then 0 else r.gain / r.total_invested * 100) :=
  ⟨by decide, by norm_num,
    calculate_sip_returns_spec 110 [105, 100] 1000 3 (by decide) (by norm_num)⟩

/-- C4: when the NAV history is shorter than the requested number of months,
`calculate_sip_returns` returns the structured insufficient-history result
carrying `len(nav_history)`, with no partial simulation and no exception. -/
theorem calculate_sip_returns_insufficient (nav : List ℚ) (c : ℚ) (N : ℕ)
    (h : nav.length < N) :
    MutualFundService.calculate_sip_returns nav c N =
      MutualFundService.SipResult.insufficient nav.length := by
  rw [MutualFundService.calculate_sip_returns.eq_def, if_pos h]

/-- Witness for C4: one month of history, three months requested. -/
theorem calculate_sip_returns_insufficient_witness :
    ([(110 : ℚ)]).length < 3 ∧
    MutualFundService.calculate_sip_returns [(110 : ℚ)] 1000 3 =
      MutualFundService.SipResult.insufficient ([(110 : ℚ)]).length :=
  ⟨by decide, calculate_sip_returns_insufficient [110] 1000 3 (by decide)⟩

/-- C5: the `xirr_estimate` reported by the SIP simulation equals
`((1 + r) ^ (12 / N) − 1) × 100` with `r = gain / total_invested`, except
that it is 0 when `total_invested = 0` or `N = 0` (both zero-denominator
cases are guarded, not faults). -/
theorem sip_xirr_estimate_spec (n0 : ℚ) (rest : List ℚ) (c : ℚ) (N : ℕ)
    (hlen : N ≤ (n0 :: rest).length) :
    ∃ r, MutualFundService.calculate_sip_returns (n0 :: rest) c N =
        MutualFundService.SipResult.ok r ∧
      r.xirr_estimate =
        if r.total_invested = 0 ∨ N = 0 then 0
        else ((1 + (r.gain : ℝ) / (r.total_invested : ℝ)) ^ ((12 : ℝ) / (N : ℝ)) - 1) * 100 := by
  have hnot : ¬ ((n0 :: rest).length < N) := not_lt.mpr hlen
  refine ⟨_, by rw [MutualFundService.calculate_sip_returns.eq_def, if_neg hnot], ?_⟩
  show MutualFundService.estimate_xirr _ _ N = _
  rw [MutualFundService.estimate_xirr]
  refine if_congr (or_congr_left Rat.cast_eq_zero) rfl ?_
  push_cast
  ring

/-- Witness for C5 at contribution 1000, N = 3, NAV history `[110, 105, 100]`. -/
theorem sip_xirr_estimate_spec_witness :
    3 ≤ ((110 : ℚ) :: [105, 100]).length ∧
    ∃ r, MutualFundService.calculate_sip_returns ((110 : ℚ) :: [105, 100]) 1000 3 =
        MutualFundService.SipResult.ok r ∧
      r.xirr_estimate =
        if r.total_invested = 0 ∨ (3 : ℕ) = 0 then 0
        else ((1 + (r.gain : ℝ) / (r.total_invested : ℝ)) ^ ((12 : ℝ) / ((3 : ℕ) : ℝ)) - 1) * 100 :=
  ⟨by decide, sip_xirr_estimate_spec 110 [105, 100] 1000 3 (by decide)⟩

/-- C7: `get_net_worth` reports `total_net_worth = bank + stocks + funds`
and per-class `allocation_percent = class_value / total × 100`, all three
percents 0 when the total is 0; at bank 0, stocks 50000, funds 30000 the
total is 80000 with 62.5% stocks, 37.5% funds, 0% bank. (Stated over the
nonnegative class values the code can produce; line 413 currently stubs the
bank balance to 0.) -/
theorem get_net_worth_spec (b s m : ℚ) (hb : 0 ≤ b) (hs : 0 ≤ s) (hm : 0 ≤ m) :
    (FinanceTrackerDashboard.get_net_worth b s m).total_net_worth = b + s + m ∧
    (b + s + m = 0 →
      (FinanceTrackerDashboard.get_net_worth b s m).bank_percent = 0 ∧
      (FinanceTrackerDashboard.get_net_worth b s m).stocks_percent = 0 ∧
      (FinanceTrackerDashboard.get_net_worth b s m).mf_percent = 0) ∧
    (b + s + m ≠ 0 →
      (FinanceTrackerDashboard.get_net_worth b s m).bank_percent = b / (b + s + m) * 100 ∧
      (FinanceTrackerDashboard.get_net_worth b s m).stocks_percent = s / (b + s + m) * 100 ∧
      (FinanceTrackerDashboard.get_net_worth b s m).mf_percent = m / (b + s + m) * 100) ∧
    (FinanceTrackerDashboard.get_net_worth 0 50000 30000).total_net_worth = 80000 ∧
    (FinanceTrackerDashboard.get_net_worth 0 50000 30000).stocks_percent = 62.5 ∧
    (FinanceTrackerDashboard.get_net_worth 0 50000 30000).mf_percent = 37.5 ∧
    (FinanceTrackerDashboard.get_net_worth 0 50000 30000).bank_percent = 0 := by
  refine ⟨rfl, ?_, ?_, by norm_num [FinanceTrackerDashboard.get_net_worth]⟩
  · intro h0
    simp [FinanceTrackerDashboard.get_net_worth, h0]
  · intro hne
    have hpos : 0 < b + s + m :=
      lt_of_le_of_ne (by positivity) (Ne.symm hne)
    simp [FinanceTrackerDashboard.get_net_worth, hpos]

/-- Witness for C7 at bank 0, stocks 50000, funds 30000 (nonzero total). -/
theorem get_net_worth_spec_witness :
    (0 : ℚ) ≤ 0 ∧ (0 : ℚ) ≤ 50000 ∧ (0 : ℚ) ≤ 30000 ∧
    ((0 : ℚ) + 50000 + 30000 ≠ 0) ∧
    (FinanceTrackerDashboard.get_net_worth 0 50000 30000).stocks_percent
      = 50000 / (0 + 50000 + 30000) * 100 :=
  ⟨by norm_num, by norm_num, by norm_num, by norm_num,
    ((get_net_worth_spec 0 50000 30000 (by norm_num) (by norm_num) (by norm_num)).2.2.1
      (by norm_num)).2.1⟩

/-- C2 counterexample: a fund holding added while the NAV series is empty.
The claim says the valuation falls back to the position's own unit cost with
`gain_loss = 0`; the code stores `current_nav = 0` (line 313), so the
position of 10 units bought for 25000 is valued at 0 with
`gain_loss = -25000 ≠ 0`. -/
theorem missing_nav_gain_loss_counterexample :
    (dictGet (MutualFundService.calculate_portfolio_metrics
        (MutualFundService.add_holding [] "S" 10 25000 "t" [])).holdings "S").map
      MutualFundService.MFDetail.gain_loss = some (-25000) ∧
    ¬ (dictGet (MutualFundService.calculate_portfolio_metrics
        (MutualFundService.add_holding [] "S" 10 25000 "t" [])).holdings "S").map
      MutualFundService.MFDetail.gain_loss = some 0 := by
  have h : (dictGet (MutualFundService.calculate_portfolio_metrics
      (MutualFundService.add_holding [] "S" 10 25000 "t" [])).holdings "S").map
        MutualFundService.MFDetail.gain_loss = some (-25000) := by
    simp [MutualFundService.calculate_portfolio_metrics, MutualFundService.mfMetricsLoop,
      MutualFundService.add_holding, dictInsert, dictGet]
  refine ⟨h, ?_⟩
  rw [h]
  simp

/-- C2 as amended: (1) an equity position whose ticker is absent from the
fetched price map falls back to its own purchase price, giving
`current_value = purchase_price × quantity` and `gain_loss = 0`, with no
error; (2) but a quote that is present with a null price is *not* a
fallback case — the null propagates and valuation fails with a `TypeError`;
(3) and a fund holding added while the NAV series is empty stores
`current_nav = 0`, so it is valued at `current_value = 0` with
`gain_loss = -amount_invested`, not 0. -/
theorem unavailable_price_handling :
    (∀ (prices : List (String × Quote)) (ticker : String) (q pp : ℚ) (d : String),
      dictGet prices ticker = none →
      ∃ s, StockPortfolioService.calculate_portfolio_metrics prices
          [(ticker, ⟨q, pp, d, none⟩)] = StockPortfolioService.StockResult.ok s ∧
        (dictGet s.holdings ticker).map StockPortfolioService.StockDetail.current_value
          = some (pp * q) ∧
        (dictGet s.holdings ticker).map StockPortfolioService.StockDetail.gain_loss
          = some 0) ∧
    (∀ (prices : List (String × Quote)) (ticker : String) (quote : Quote)
        (q pp : ℚ) (d : String),
      dictGet prices ticker = some quote → quote.price = none →
      StockPortfolioService.calculate_portfolio_metrics prices [(ticker, ⟨q, pp, d, none⟩)]
        = StockPortfolioService.StockResult.typeError) ∧
    (∀ (scheme_code : String) (u a : ℚ) (now : String),
      (dictGet (MutualFundService.add_holding [] scheme_code u a now []) scheme_code).map
        MFHolding.current_nav = some 0 ∧
      (dictGet (MutualFundService.calculate_portfolio_metrics
          (MutualFundService.add_holding [] scheme_code u a now [])).holdings
        scheme_code).map MutualFundService.MFDetail.current_value = some 0 ∧
      (dictGet (MutualFundService.calculate_portfolio_metrics
          (MutualFundService.add_holding [] scheme_code u a now [])).holdings
        scheme_code).map MutualFundService.MFDetail.gain_loss = some (-a)) := by
  refine ⟨?_, ?_, ?_⟩
  · intro prices ticker q pp d hmiss
    simp only [StockPortfolioService.calculate_portfolio_metrics,
      StockPortfolioService.metricsLoop, StockPortfolioService.resolve_current_price,
      hmiss, dictInsert]
    refine ⟨_, rfl, ?_, ?_⟩ <;> simp [dictGet]
  · intro prices ticker quote q pp d hq hp
    simp [StockPortfolioService.calculate_portfolio_metrics,
      StockPortfolioService.metricsLoop, StockPortfolioService.resolve_current_price,
      hq, hp]
  · intro scheme_code u a now
    refine ⟨?_, ?_, ?_⟩ <;>
      simp [MutualFundService.calculate_portfolio_metrics, MutualFundService.mfMetricsLoop,
        MutualFundService.add_holding, dictInsert, dictGet]

/-- Witness for C2 (amended) at the spec's example position: quantity 10,
unit cost 2500, ticker "X" — absent from the price map in the fallback
conjunct, present with a null price in the `TypeError` conjunct. -/
theorem unavailable_price_handling_witness :
    dictGet ([] : List (String × Quote)) "X" = none ∧
    (∃ s, StockPortfolioService.calculate_portfolio_metrics []
        [("X", ⟨10, 2500, "d", none⟩)] = StockPortfolioService.StockResult.ok s ∧
      (dictGet s.holdings "X").map StockPortfolioService.StockDetail.current_value
        = some (2500 * 10) ∧
      (dictGet s.holdings "X").map StockPortfolioService.StockDetail.gain_loss
        = some 0) ∧
    dictGet [("X", (⟨none⟩ : Quote))] "X" = some ⟨none⟩ ∧ (⟨none⟩ : Quote).price = none ∧
    StockPortfolioService.calculate_portfolio_metrics [("X", ⟨none⟩)]
      [("X", ⟨10, 2500, "d", none⟩)] = StockPortfolioService.StockResult.typeError :=
  ⟨rfl, unavailable_price_handling.1 [] "X" 10 2500 "d" rfl,
    by simp [dictGet], rfl,
    unavailable_price_handling.2.1 [("X", ⟨none⟩)] "X" ⟨none⟩ 10 2500 "d"
      (by simp [dictGet]) rfl⟩

/-! ## Loop invariants for the two valuation engines -/

theorem metricsLoop_glp_invariant (prices : List (String × Quote))
    (hs : List (String × StockHolding)) :
    ∀ (ti tc : ℚ) (det : List (String × StockPortfolioService.StockDetail))
      (res : ℚ × ℚ × List (String × StockPortfolioService.StockDetail)),
      (∀ t d, (t, d) ∈ det → d.invested_value = 0 → d.gain_loss_percent = 0) →
      StockPortfolioService.metricsLoop prices hs ti tc det = some res →
      ∀ t d, (t, d) ∈ res.2.2 → d.invested_value = 0 → d.gain_loss_percent = 0 := by
  induction hs with
  | nil =>
    intro ti tc det res hinv heq
    simp only [StockPortfolioService.metricsLoop, Option.some.injEq] at heq
    subst heq
    exact hinv
  | cons hd tl ih =>
    obtain ⟨ticker, h⟩ := hd
    intro ti tc det res hinv heq
    cases hr : StockPortfolioService.resolve_current_price prices ticker h.purchase_price with
    | none =>
      simp [StockPortfolioService.metricsLoop, hr] at heq
    | some cp =>
      simp only [StockPortfolioService.metricsLoop, hr] at heq
      refine ih _ _ _ _ ?_ heq
      intro t d hmem hd0
      rcases mem_dictInsert _ _ _ _ hmem with hx | hx
      · rw [Prod.ext_iff] at hx
        obtain ⟨ht, hdd⟩ := hx
        subst hdd
        have h0' : h.purchase_price * h.quantity = 0 := hd0
        show (if h.purchase_price * h.quantity > 0
            then (cp * h.quantity - h.purchase_price * h.quantity) /
              (h.purchase_price * h.quantity) * 100 else 0) = 0
        rw [h0']
        simp
      · exact hinv t d hx hd0

theorem mfMetricsLoop_glp_invariant (hs : List (String × MFHolding)) :
    ∀ (ti tc : ℚ) (det : List (String × MutualFundService.MFDetail)),
      (∀ t d, (t, d) ∈ det → d.amount_invested = 0 → d.gain_loss_percent = 0) →
      ∀ t d, (t, d) ∈ (MutualFundService.mfMetricsLoop hs ti tc det).2.2 →
        d.amount_invested = 0 → d.gain_loss_percent = 0 := by
  induction hs with
  | nil =>
    intro ti tc det hinv
    exact hinv
  | cons hd tl ih =>
    obtain ⟨scheme_code, h⟩ := hd
    intro ti tc det hinv
    show ∀ t d, (t, d) ∈ (MutualFundService.mfMetricsLoop tl _ _ _).2.2 → _
    refine ih _ _ _ ?_
    intro t d hmem hd0
    rcases mem_dictInsert _ _ _ _ hmem with hx | hx
    · rw [Prod.ext_iff] at hx
      obtain ⟨ht, hdd⟩ := hx
      subst hdd
      have h0' : h.amount_invested = 0 := hd0
      show (if h.amount_invested > 0
          then (h.units * h.current_nav - h.amount_invested) / h.amount_invested * 100
          else 0) = 0
      rw [h0']
      simp
    · exact hinv t d hx hd0

/-- C8: every percentage in the core guards its zero denominator by yielding
0: a position whose invested amount is 0 reports `gain_loss_percent = 0`,
and a portfolio whose `total_invested` is 0 reports
`total_gain_loss_percent = 0`, in both the stock and the fund engine (in
this exact-arithmetic embedding division is total, so no fault can occur;
the code's `if ... > 0 else 0` guards are what these equations capture). -/
theorem division_guards :
    (∀ prices hs s, StockPortfolioService.calculate_portfolio_metrics prices hs =
        StockPortfolioService.StockResult.ok s →
      (∀ t d, (t, d) ∈ s.holdings → d.invested_value = 0 → d.gain_loss_percent = 0) ∧
      (s.total_invested = 0 → s.total_gain_loss_percent = 0)) ∧
    (∀ hs t d, (t, d) ∈ (MutualFundService.calculate_portfolio_metrics hs).holdings →
      d.amount_invested = 0 → d.gain_loss_percent = 0) ∧
    (∀ hs, (MutualFundService.calculate_portfolio_metrics hs).total_invested = 0 →
      (MutualFundService.calculate_portfolio_metrics hs).total_gain_loss_percent = 0) := by
  refine ⟨?_, ?_, ?_⟩
  · intro prices hs s heq
    cases hs with
    | nil => simp [StockPortfolioService.calculate_portfolio_metrics] at heq
    | cons hd tl =>
      have heq' : (match StockPortfolioService.metricsLoop prices (hd :: tl) 0 0 [] with
          | none => StockPortfolioService.StockResult.typeError
          | some (ti, tc, det) => StockPortfolioService.StockResult.ok
              ⟨ti, tc, tc - ti, if ti > 0 then (tc - ti) / ti * 100 else 0, det⟩)
          = StockPortfolioService.StockResult.ok s := heq
      cases hloop : StockPortfolioService.metricsLoop prices (hd :: tl) 0 0 [] with
      | none =>
        rw [hloop] at heq'
        exact absurd heq' (by simp)
      | some r =>
        obtain ⟨ti, tc, det⟩ := r
        rw [hloop] at heq'
        rw [StockPortfolioService.StockResult.ok.injEq] at heq'
        subst heq'
        constructor
        · intro t d hmem hd0
          exact metricsLoop_glp_invariant prices (hd :: tl) 0 0 [] (ti, tc, det)
            (by simp) hloop t d hmem hd0
        · intro h0
          have h0' : ti = 0 := h0
          show (if ti > 0 then (tc - ti) / ti * 100 else 0) = 0
          rw [h0']
          simp
  · intro hs t d hmem hd0
    rcases htup : MutualFundService.mfMetricsLoop hs 0 0 [] with ⟨ti, tc, det⟩
    rw [MutualFundService.calculate_portfolio_metrics, htup] at hmem
    have hmem' : (t, d) ∈ (MutualFundService.mfMetricsLoop hs 0 0 []).2.2 := by
      rw [htup]; exact hmem
    exact mfMetricsLoop_glp_invariant hs 0 0 [] (by simp) t d hmem' hd0
  · intro hs h0
    rcases htup : MutualFundService.mfMetricsLoop hs 0 0 [] with ⟨ti, tc, det⟩
    rw [MutualFundService.calculate_portfolio_metrics, htup] at h0 ⊢
    have h0' : ti = 0 := h0
    show (if ti > 0 then (tc - ti) / ti * 100 else 0) = 0
    rw [h0']
    simp

/-- Witness for C8: a stock position bought at price 0 (invested 0, percent
reported 0) and a fund ledger whose single holding has `amount_invested = 0`. -/
theorem division_guards_witness :
    StockPortfolioService.calculate_portfolio_metrics [] [("A", ⟨1, 0, "d", none⟩)]
      = StockPortfolioService.StockResult.ok ⟨0, 0, 0, 0, [("A", ⟨1, 0, 0, 0, 0, 0, 0, 0⟩)]⟩ ∧
    ("A", (⟨1, 0, 0, 0, 0, 0, 0, 0⟩ : StockPortfolioService.StockDetail))
      ∈ ([("A", (⟨1, 0, 0, 0, 0, 0, 0, 0⟩ : StockPortfolioService.StockDetail))] :
          List (String × StockPortfolioService.StockDetail)) ∧
    (⟨1, 0, 0, 0, 0, 0, 0, 0⟩ : StockPortfolioService.StockDetail).invested_value = 0 ∧
    (⟨1, 0, 0, 0, 0, 0, 0, 0⟩ : StockPortfolioService.StockDetail).gain_loss_percent = 0 ∧
    (MutualFundService.calculate_portfolio_metrics [("S", ⟨10, 0, 5, "t"⟩)]).total_invested = 0 ∧
    (MutualFundService.calculate_portfolio_metrics [("S", ⟨10, 0, 5, "t"⟩)]).total_gain_loss_percent = 0 := by
  have hok : StockPortfolioService.calculate_portfolio_metrics [] [("A", ⟨1, 0, "d", none⟩)]
      = StockPortfolioService.StockResult.ok
          ⟨0, 0, 0, 0, [("A", ⟨1, 0, 0, 0, 0, 0, 0, 0⟩)]⟩ := by
    simp [StockPortfolioService.calculate_portfolio_metrics, StockPortfolioService.metricsLoop,
      StockPortfolioService.resolve_current_price, dictGet, dictInsert]
  have hmf : (MutualFundService.calculate_portfolio_metrics
      [("S", ⟨10, 0, 5, "t"⟩)]).total_invested = 0 := by
    simp [MutualFundService.calculate_portfolio_metrics, MutualFundService.mfMetricsLoop,
      dictInsert]
  refine ⟨hok, by simp, rfl, ?_, hmf, ?_⟩
  · exact (division_guards.1 [] _ _ hok).1 "A" _ (by simp) rfl
  · exact division_guards.2.2 [("S", ⟨10, 0, 5, "t"⟩)] hmf

theorem metricsLoop_totals (prices : List (String × Quote))
    (hs : List (String × StockHolding)) :
    ∀ (ti tc : ℚ) (det : List (String × StockPortfolioService.StockDetail))
      (ti' tc' : ℚ) (det' : List (String × StockPortfolioService.StockDetail)),
      (hs.map Prod.fst).Nodup →
      (∀ k, k ∈ hs.map Prod.fst → k ∉ det.map Prod.fst) →
      StockPortfolioService.metricsLoop prices hs ti tc det = some (ti', tc', det') →
      ∃ δ, det' = det ++ δ ∧
        ti' = ti + (δ.map (fun p => p.2.invested_value)).sum ∧
        tc' = tc + (δ.map (fun p => p.2.current_value)).sum := by
  induction hs with
  | nil =>
    intro ti tc det ti' tc' det' _ _ heq
    simp only [StockPortfolioService.metricsLoop, Option.some.injEq, Prod.mk.injEq] at heq
    obtain ⟨rfl, rfl, rfl⟩ := heq
    exact ⟨[], by simp, by simp, by simp⟩
  | cons hd tl ih =>
    obtain ⟨ticker, h⟩ := hd
    intro ti tc det ti' tc' det' hnd hdisj heq
    have hnd' : (tl.map Prod.fst).Nodup := by
      simp only [List.map_cons, List.nodup_cons] at hnd
      exact hnd.2
    have hknotl : ticker ∉ tl.map Prod.fst := by
      simp only [List.map_cons, List.nodup_cons] at hnd
      exact hnd.1
    have hknotdet : ticker ∉ det.map Prod.fst := hdisj ticker (by simp)
    have hdisj' : ∀ (v : StockPortfolioService.StockDetail) k, k ∈ tl.map Prod.fst →
        k ∉ (det ++ [(ticker, v)]).map Prod.fst := by
      intro v k hk
      have h1 : k ∉ det.map Prod.fst := hdisj k (by simp [hk])
      have h2 : k ≠ ticker := fun hkt => hknotl (hkt ▸ hk)
      simp [h1, h2]
    cases hr : StockPortfolioService.resolve_current_price prices ticker h.purchase_price with
    | none =>
      simp [StockPortfolioService.metricsLoop, hr] at heq
    | some cp =>
      simp only [StockPortfolioService.metricsLoop, hr] at heq
      rw [dictInsert_of_not_mem_keys det ticker _ hknotdet] at heq
      obtain ⟨δ, hdet, hti, htc⟩ := ih _ _ _ _ _ _ hnd' (hdisj' _) heq
      refine ⟨(ticker,
          (⟨h.quantity, h.purchase_price, cp, h.purchase_price * h.quantity,
            cp * h.quantity, cp * h.quantity - h.purchase_price * h.quantity,
            if h.purchase_price * h.quantity > 0
            then (cp * h.quantity - h.purchase_price * h.quantity) /
              (h.purchase_price * h.quantity) * 100
            else 0,
            if tc + cp * h.quantity > 0
            then cp * h.quantity / (tc + cp * h.quantity) * 100
            else 0⟩ : StockPortfolioService.StockDetail)) :: δ, ?_, ?_, ?_⟩
      · rw [hdet, List.append_assoc, List.singleton_append]
      · rw [hti]
        simp [add_assoc]
      · rw [htc]
        simp [add_assoc]

theorem mfMetricsLoop_totals (hs : List (String × MFHolding)) :
    ∀ (ti tc : ℚ) (det : List (String × MutualFundService.MFDetail)),
      (hs.map Prod.fst).Nodup →
      (∀ k, k ∈ hs.map Prod.fst → k ∉ det.map Prod.fst) →
      ∃ δ, (MutualFundService.mfMetricsLoop hs ti tc det).2.2 = det ++ δ ∧
        (MutualFundService.mfMetricsLoop hs ti tc det).1 =
          ti + (δ.map (fun p => p.2.amount_invested)).sum ∧
        (MutualFundService.mfMetricsLoop hs ti tc det).2.1 =
          tc + (δ.map (fun p => p.2.current_value)).sum := by
  induction hs with
  | nil =>
    intro ti tc det _ _
    exact ⟨[], by simp [MutualFundService.mfMetricsLoop],
      by simp [MutualFundService.mfMetricsLoop], by simp [MutualFundService.mfMetricsLoop]⟩
  | cons hd tl ih =>
    obtain ⟨scheme_code, h⟩ := hd
    intro ti tc det hnd hdisj
    have hnd' : (tl.map Prod.fst).Nodup := by
      simp only [List.map_cons, List.nodup_cons] at hnd
      exact hnd.2
    have hknotl : scheme_code ∉ tl.map Prod.fst := by
      simp only [List.map_cons, List.nodup_cons] at hnd
      exact hnd.1
    have hknotdet : scheme_code ∉ det.map Prod.fst := hdisj scheme_code (by simp)
    have hdisj' : ∀ (v : MutualFundService.MFDetail) k, k ∈ tl.map Prod.fst →
        k ∉ (det ++ [(scheme_code, v)]).map Prod.fst := by
      intro v k hk
      have h1 : k ∉ det.map Prod.fst := hdisj k (by simp [hk])
      have h2 : k ≠ scheme_code := fun hkt => hknotl (hkt ▸ hk)
      simp [h1, h2]
    have hstep : MutualFundService.mfMetricsLoop ((scheme_code, h) :: tl) ti tc det
        = MutualFundService.mfMetricsLoop tl (ti + h.amount_invested)
            (tc + h.units * h.current_nav)
            (det ++ [(scheme_code, (⟨h.units, h.current_nav, h.amount_invested, h.units * h.current_nav,
          h.units * h.current_nav - h.amount_invested,
          if h.amount_invested > 0
          then (h.units * h.current_nav - h.amount_invested) / h.amount_invested * 100
          else 0⟩ : MutualFundService.MFDetail))]) := by
      show MutualFundService.mfMetricsLoop tl (ti + h.amount_invested)
          (tc + h.units * h.current_nav)
          (dictInsert scheme_code (⟨h.units, h.current_nav, h.amount_invested, h.units * h.current_nav,
          h.units * h.current_nav - h.amount_invested,
          if h.amount_invested > 0
          then (h.units * h.current_nav - h.amount_invested) / h.amount_invested * 100
          else 0⟩ : MutualFundService.MFDetail) det) = _
      rw [dictInsert_of_not_mem_keys det scheme_code _ hknotdet]
    obtain ⟨δ, hdet, hti, htc⟩ := ih (ti + h.amount_invested)
      (tc + h.units * h.current_nav)
      (det ++ [(scheme_code, (⟨h.units, h.current_nav, h.amount_invested, h.units * h.current_nav,
          h.units * h.current_nav - h.amount_invested,
          if h.amount_invested > 0
          then (h.units * h.current_nav - h.amount_invested) / h.amount_invested * 100
          else 0⟩ : MutualFundService.MFDetail))]) hnd' (hdisj' _)
    refine ⟨(scheme_code, (⟨h.units, h.current_nav, h.amount_invested, h.units * h.current_nav,
          h.units * h.current_nav - h.amount_invested,
          if h.amount_invested > 0
          then (h.units * h.current_nav - h.amount_invested) / h.amount_invested * 100
          else 0⟩ : MutualFundService.MFDetail)) :: δ, ?_, ?_, ?_⟩
    · rw [hstep, hdet, List.append_assoc, List.singleton_append]
    · rw [hstep, hti]
      simp [add_assoc]
    · rw [hstep, htc]
      simp [add_assoc]

/-- C9: in both engines the reported `total_invested` and `total_current`
are exactly the sums of the per-position invested amounts and
`current_value` fields of the reported holdings detail (exact equality in
this `ℚ` embedding; the ledger's keys are distinct, as Python dict keys
are). -/
theorem totals_are_sums :
    (∀ prices hs s, (hs.map Prod.fst).Nodup →
      StockPortfolioService.calculate_portfolio_metrics prices hs =
        StockPortfolioService.StockResult.ok s →
      s.total_invested = (s.holdings.map (fun p => p.2.invested_value)).sum ∧
      s.total_current = (s.holdings.map (fun p => p.2.current_value)).sum) ∧
    (∀ hs, (hs.map Prod.fst).Nodup →
      (MutualFundService.calculate_portfolio_metrics hs).total_invested =
        ((MutualFundService.calculate_portfolio_metrics hs).holdings.map
          (fun p => p.2.amount_invested)).sum ∧
      (MutualFundService.calculate_portfolio_metrics hs).total_current =
        ((MutualFundService.calculate_portfolio_metrics hs).holdings.map
          (fun p => p.2.current_value)).sum) := by
  constructor
  · intro prices hs s hnd heq
    cases hs with
    | nil => simp [StockPortfolioService.calculate_portfolio_metrics] at heq
    | cons hd tl =>
      have heq' : (match StockPortfolioService.metricsLoop prices (hd :: tl) 0 0 [] with
          | none => StockPortfolioService.StockResult.typeError
          | some (ti, tc, det) => StockPortfolioService.StockResult.ok
              ⟨ti, tc, tc - ti, if ti > 0 then (tc - ti) / ti * 100 else 0, det⟩)
          = StockPortfolioService.StockResult.ok s := heq
      cases hloop : StockPortfolioService.metricsLoop prices (hd :: tl) 0 0 [] with
      | none =>
        rw [hloop] at heq'
        exact absurd heq' (by simp)
      | some r =>
        obtain ⟨ti, tc, det⟩ := r
        rw [hloop] at heq'
        rw [StockPortfolioService.StockResult.ok.injEq] at heq'
        subst heq'
        obtain ⟨δ, hdet, hti, htc⟩ := metricsLoop_totals prices (hd :: tl) 0 0 [] ti tc det
          hnd (by simp) hloop
        constructor
        · show ti = (det.map (fun p => p.2.invested_value)).sum
          rw [hti, hdet]
          simp
        · show tc = (det.map (fun p => p.2.current_value)).sum
          rw [htc, hdet]
          simp
  · intro hs hnd
    obtain ⟨δ, hdet, hti, htc⟩ := mfMetricsLoop_totals hs 0 0 [] hnd (by simp)
    rcases htup : MutualFundService.mfMetricsLoop hs 0 0 [] with ⟨ti, tc, det⟩
    rw [htup] at hdet hti htc
    have hdet' : det = [] ++ δ := hdet
    have hti' : ti = 0 + (δ.map (fun p => p.2.amount_invested)).sum := hti
    have htc' : tc = 0 + (δ.map (fun p => p.2.current_value)).sum := htc
    rw [MutualFundService.calculate_portfolio_metrics, htup]
    constructor
    · show ti = (det.map (fun p => p.2.amount_invested)).sum
      rw [hti', hdet']
      simp
    · show tc = (det.map (fun p => p.2.current_value)).sum
      rw [htc', hdet']
      simp

/-- Witness for C9: a one-position stock ledger (quantity 2, bought at 10,
no quote, so valued at the fallback price 10). -/
theorem totals_are_sums_witness :
    (([("A", (⟨2, 10, "d", none⟩ : StockHolding))].map Prod.fst)).Nodup ∧
    StockPortfolioService.calculate_portfolio_metrics [] [("A", ⟨2, 10, "d", none⟩)]
      = StockPortfolioService.StockResult.ok
          ⟨20, 20, 0, 0, [("A", ⟨2, 10, 10, 20, 20, 0, 0, 100⟩)]⟩ ∧
    ((⟨20, 20, 0, 0, [("A", ⟨2, 10, 10, 20, 20, 0, 0, 100⟩)]⟩ :
        StockPortfolioService.StockSummary).total_invested =
      (((⟨20, 20, 0, 0, [("A", ⟨2, 10, 10, 20, 20, 0, 0, 100⟩)]⟩ :
        StockPortfolioService.StockSummary).holdings.map
          (fun p => p.2.invested_value)).sum) ∧
      (⟨20, 20, 0, 0, [("A", ⟨2, 10, 10, 20, 20, 0, 0, 100⟩)]⟩ :
        StockPortfolioService.StockSummary).total_current =
      (((⟨20, 20, 0, 0, [("A", ⟨2, 10, 10, 20, 20, 0, 0, 100⟩)]⟩ :
        StockPortfolioService.StockSummary).holdings.map
          (fun p => p.2.current_value)).sum)) := by
  have hok : StockPortfolioService.calculate_portfolio_metrics [] [("A", ⟨2, 10, "d", none⟩)]
      = StockPortfolioService.StockResult.ok
          ⟨20, 20, 0, 0, [("A", ⟨2, 10, 10, 20, 20, 0, 0, 100⟩)]⟩ := by
    simp [StockPortfolioService.calculate_portfolio_metrics, StockPortfolioService.metricsLoop,
      StockPortfolioService.resolve_current_price, dictGet, dictInsert]
    norm_num
  exact ⟨by simp, hok, totals_are_sums.1 [] _ _ (by simp) hok⟩
